import Mathlib

/-!
Verification of the SyncrowinFunctions blob-ingestion pipeline
(src/function_app.py) against its natural-language specification.

The embedding is a direct translation of the Python source:
* strings are `List Char` (the source only manipulates ASCII text);
* Python's `None`-able string values become `Option (List Char)`;
* the concrete regular expressions of the source (`CP-F-\w+`,
  `\b(CP-F-\w+)\b`, `\b(S\-Nr\.\d+|SN\d+)\b`, the IGNORECASE
  alternations and IGNORECASE whole-word searches) are embedded as
  dedicated scanners with Python's leftmost-match semantics;
* `\w` is embedded at ASCII granularity (`[A-Za-z0-9_]`), matching the
  character classes actually exercised by the pipeline;
* fallible steps (`process_ocr`, `extract_text`) return `Except`;
* the dict merge `{**a, **b}` of the orchestrator becomes a record
  update in which the later (filename) source overwrites its keys.
-/

/-! ## Character classes (ASCII embedding of Python's `\w`, `\d`, IGNORECASE) -/

/-- ASCII word character, embedding Python's regex class `\w`:
letters, digits and underscore. -/
def wordChar (c : Char) : Bool :=
  (48 ≤ c.toNat && c.toNat ≤ 57) || (65 ≤ c.toNat && c.toNat ≤ 90) ||
  (97 ≤ c.toNat && c.toNat ≤ 122) || (c.toNat == 95)

/-- ASCII digit, embedding Python's regex class `\d`. -/
def digitChar (c : Char) : Bool :=
  48 ≤ c.toNat && c.toNat ≤ 57

/-- ASCII lower-casing viewed as a code point, used to embed
`re.IGNORECASE` comparisons. -/
def lowerN (c : Char) : Nat :=
  if 65 ≤ c.toNat && c.toNat ≤ 90 then c.toNat + 32 else c.toNat

/-- Case-insensitive character comparison (embeds `re.IGNORECASE`). -/
def charEqCI (a b : Char) : Bool :=
  lowerN a == lowerN b

/-! ## Matching primitives -/

/-- Case-insensitive "the pattern is a literal prefix of the text". -/
def isPrefixCI : List Char → List Char → Bool
  | [], _ => true
  | _ :: _, [] => false
  | p :: ps, t :: ts => charEqCI t p && isPrefixCI ps ts

/-- The character at offset `n` (if any) is not a word character: the
state of a regex word boundary `\b` placed after `n` consumed word
characters. End of input counts as a boundary. -/
def nonWordAt (text : List Char) (n : Nat) : Bool :=
  match text.drop n with
  | [] => true
  | c :: _ => !wordChar c

/-- The text starts with a word character. -/
def headWord : List Char → Bool
  | [] => false
  | c :: _ => wordChar c

/-- Case-sensitive substring containment: Python's `pat in text`. -/
def containsSub (pat : List Char) : List Char → Bool
  | [] => pat.isEmpty
  | c :: rest => pat.isPrefixOf (c :: rest) || containsSub pat rest

/-- Scanner for `re.search(rf"\b{pat}\b", text, re.IGNORECASE)` where
`pat` is a literal beginning and ending with a word character (true of
every vocabulary entry in the source).  The Boolean argument records
whether the character before the current position is absent or a
non-word character, i.e. whether `\b` holds here. -/
def searchWWAux (pat : List Char) : Bool → List Char → Bool
  | b, [] => b && isPrefixCI pat [] && nonWordAt ([] : List Char) pat.length
  | b, c :: rest =>
    (b && isPrefixCI pat (c :: rest) && nonWordAt (c :: rest) pat.length) ||
    searchWWAux pat (!wordChar c) rest

/-- Whole-word case-insensitive search from the start of the text
(start of input is a word boundary). -/
def searchWW (pat text : List Char) : Bool :=
  searchWWAux pat true text

/-- Scanner for `re.search(r"(p1|p2|...)", text, re.IGNORECASE)` with
literal alternatives: leftmost position wins, and at a position the
first alternative in pattern order wins.  Returns the matched slice of
the text (Python's `group(1)`, which keeps the input's casing). -/
def findAltCI (pats : List (List Char)) : List Char → Option (List Char)
  | [] =>
    match pats.find? (fun p => isPrefixCI p []) with
    | some p => some (List.take p.length [])
    | none => none
  | c :: rest =>
    match pats.find? (fun p => isPrefixCI p (c :: rest)) with
    | some p => some ((c :: rest).take p.length)
    | none => findAltCI pats rest

/-- Scanner for `re.search(r"CP-F-\w+", filename)` (no word
boundaries, case-sensitive): leftmost occurrence of the literal
`CP-F-` followed by at least one word character; the match extends
greedily over word characters. -/
def findCPFNoBoundary : List Char → Option (List Char)
  | [] => none
  | c :: rest =>
    if "CP-F-".toList.isPrefixOf (c :: rest) && headWord ((c :: rest).drop 5) then
      some ("CP-F-".toList ++ ((c :: rest).drop 5).takeWhile wordChar)
    else
      findCPFNoBoundary rest

/-- Scanner for `re.search(r"\b(CP-F-\w+)\b", extracted_text)`
(case-sensitive).  The leading `\b` requires the previous character to
be absent or non-word (tracked by the Boolean); the trailing `\b` is
automatic because the greedy `\w+` run is maximal, so the next
character is non-word or absent. -/
def findCPFAux : Bool → List Char → Option (List Char)
  | _, [] => none
  | b, c :: rest =>
    if b && "CP-F-".toList.isPrefixOf (c :: rest) && headWord ((c :: rest).drop 5) then
      some ("CP-F-".toList ++ ((c :: rest).drop 5).takeWhile wordChar)
    else
      findCPFAux (!wordChar c) rest

/-- `re.search(r"\b(CP-F-\w+)\b", text)` from the start of the text. -/
def findCPF (text : List Char) : Option (List Char) :=
  findCPFAux true text

/-- One position of `\b(S\-Nr\.\d+|SN\d+)\b`: try the `S-Nr.<digits>`
alternative, then the `SN<digits>` alternative.  The trailing `\b`
requires the character after the maximal digit run to be non-word or
absent (a shorter digit run would be followed by a digit, a word
character, so backtracking can never satisfy `\b`). -/
def serialAt (text : List Char) : Option (List Char) :=
  if "S-Nr.".toList.isPrefixOf text then
    let ds := (text.drop 5).takeWhile digitChar
    if !ds.isEmpty && nonWordAt text (5 + ds.length) then
      some ("S-Nr.".toList ++ ds)
    else none
  else if "SN".toList.isPrefixOf text then
    let ds := (text.drop 2).takeWhile digitChar
    if !ds.isEmpty && nonWordAt text (2 + ds.length) then
      some ("SN".toList ++ ds)
    else none
  else none

/-- Scanner for `re.search(r"\b(S\-Nr\.\d+|SN\d+)\b", text)`: the
Boolean tracks the leading word boundary, as in `findCPFAux`. -/
def findSerialAux : Bool → List Char → Option (List Char)
  | _, [] => none
  | b, c :: rest =>
    match (if b then serialAt (c :: rest) else none) with
    | some s => some s
    | none => findSerialAux (!wordChar c) rest

/-- `re.search(r"\b(S\-Nr\.\d+|SN\d+)\b", text)` from the start. -/
def findSerial (text : List Char) : Option (List Char) :=
  findSerialAux true text

/-! ## Data model -/

/-- The five-key dict built by `parse_extracted_text`
(src/function_app.py lines 123-129): fixed keys, optional values. -/
structure ExtractedFields where
  AssetType : Option (List Char)
  Manufacturer : Option (List Char)
  ModelNumber : Option (List Char)
  SerialNumber : Option (List Char)
  DocumentType : Option (List Char)
deriving DecidableEq

/-- The two-key dict built by `extract_from_filename`
(src/function_app.py lines 101-104): it always carries both keys,
possibly set to `None`. -/
structure FilenameFields where
  AssetType : Option (List Char)
  DocumentType : Option (List Char)
deriving DecidableEq

/-! ## Field Extractor -/

/-- `manufacturer_patterns` (src line 131). -/
def manufacturer_patterns : List (List Char) :=
  ["FESTO".toList, "Mitsubishi".toList, "Siemens".toList, "ABB".toList]

/-- `document_type_patterns` (src line 132). -/
def document_type_patterns : List (List Char) :=
  ["Manual".toList, "Circuit diagrams".toList, "Maintenance Manual".toList]

/-- `asset_type_patterns` (src line 133). -/
def asset_type_patterns : List (List Char) :=
  ["Robot".toList, "Conveyor".toList, "Assembly Cell".toList,
   "Motor".toList, "Switch".toList, "Grundmodul".toList]

/-- `parse_extracted_text` (src lines 121-169).  Manufacturer uses
Python's case-sensitive substring test `manufacturer in extracted_text`
(line 141); document type and asset type use case-insensitive
whole-word searches (lines 147, 153); in all three loops the first
pattern in list order that matches wins (`break`).  Model and serial
numbers come from their regexes, and the final guard (lines 166-167)
nulls ModelNumber when it equals AssetType. -/
def parse_extracted_text (extracted_text : List Char) : ExtractedFields :=
  let model_number_match := findCPF extracted_text
  let serial_number_match := findSerial extracted_text
  let manufacturer :=
    manufacturer_patterns.find? (fun m => containsSub m extracted_text)
  let documentType :=
    document_type_patterns.find? (fun d => searchWW d extracted_text)
  let assetType :=
    asset_type_patterns.find? (fun a => searchWW a extracted_text)
  let modelNumber :=
    if model_number_match = assetType then none else model_number_match
  { AssetType := assetType
    Manufacturer := manufacturer
    ModelNumber := modelNumber
    SerialNumber := serial_number_match
    DocumentType := documentType }

/-- The alternation of `re.search(r"(Manual|Circuit diagrams|Maintenance)",
filename, re.IGNORECASE)` (src line 110). -/
def filename_document_patterns : List (List Char) :=
  ["Manual".toList, "Circuit diagrams".toList, "Maintenance".toList]

/-- `extract_from_filename` (src lines 99-118): `AssetType` from
`re.search(r"CP-F-\w+", filename)`, `DocumentType` from the
case-insensitive alternation, whose `group(1)` is the matched slice of
the filename (original casing). -/
def extract_from_filename (filename : List Char) : FilenameFields :=
  { AssetType := findCPFNoBoundary filename
    DocumentType := findAltCI filename_document_patterns filename }

/-- The orchestrator's dict merge (src line 36):
`parsed_data = {**parsed_data_from_text, **parsed_data_from_filename}`.
In Python the later mapping overwrites on key collision, and the
filename mapping always carries exactly the keys `AssetType` and
`DocumentType` (src lines 101-104), so those two keys take the
filename values and the other three keep the text values. -/
def mergeFields (t : ExtractedFields) (f : FilenameFields) : ExtractedFields :=
  { t with AssetType := f.AssetType, DocumentType := f.DocumentType }

/-! ## Recognition Client and Orchestrator -/

/-- One recognized line of the OCR payload (a dict with a `text`
key, src line 92). -/
structure OcrLine where
  text : List Char
deriving DecidableEq

/-- One entry of `analyzeResult.readResults` (src line 92). -/
structure ReadResult where
  lines : List OcrLine
deriving DecidableEq

/-- The JSON body of a poll response: its `status` field (src line 74)
and, when present, `analyzeResult.readResults` (src line 92).
A missing `analyzeResult` key is `none`. -/
structure OcrResult where
  status : List Char
  analyzeResult : Option (List ReadResult)
deriving DecidableEq

/-- The synchronous submit response: status code and the optional
`Operation-Location` header (src lines 52-61). -/
structure SubmitResponse where
  statusCode : Nat
  operationLocation : Option (List Char)
deriving DecidableEq

/-- One poll response: status code and JSON body (src lines 70-74). -/
structure PollResponse where
  statusCode : Nat
  body : OcrResult
deriving DecidableEq

/-- The failures the pipeline can raise.  The source raises plain
`Exception`s; the constructors name the distinct raise sites
(src lines 56, 61, 81, 86, 96 and the list indexing at line 92). -/
inductive PipeError where
  | submissionError
  | protocolError
  | processingError
  | timeoutError
  | extractionKeyError
  | indexError
deriving DecidableEq

/-- The message text of each raise site, as logged by the caller. -/
def errMsg : PipeError → List Char
  | .submissionError => "OCR API call failed".toList
  | .protocolError =>
    "Operation-Location header is missing from OCR API response.".toList
  | .processingError => "OCR processing failed.".toList
  | .timeoutError => "OCR processing took too long or did not complete.".toList
  | .extractionKeyError => "Failed to extract text from OCR result".toList
  | .indexError => "list index out of range".toList

/-- `polls i` is the response to the `i`-th poll (0-based). -/
def isSucceededPoll (r : PollResponse) : Bool :=
  r.statusCode == 200 && r.body.status == "succeeded".toList

/-- The poll reported HTTP 200 with JSON status `failed`. -/
def isFailedPoll (r : PollResponse) : Bool :=
  r.statusCode == 200 && r.body.status == "failed".toList

/-- The poll is ignored and polling continues: non-200, or 200 with a
non-terminal status (src lines 72-84 fall through to the next
iteration in both cases). -/
def nonTerminalPoll (r : PollResponse) : Bool :=
  !isSucceededPoll r && !isFailedPoll r

/-- The poll loop of `process_ocr` (src lines 66-86), with the number
of remaining attempts as an argument (`max_poll_attempts -
poll_attempts`) and the index of the next poll.  Returns the loop's
outcome together with the number of polls actually performed, so call
counts can be stated.  Exhausting the budget raises the final
"took too long" exception (src line 86). -/
def pollLoopAux (polls : Nat → PollResponse) :
    Nat → Nat → Except PipeError OcrResult × Nat
  | _, 0 => (.error .timeoutError, 0)
  | attempt, rem + 1 =>
    let r := polls attempt
    if isSucceededPoll r then (.ok r.body, 1)
    else if isFailedPoll r then (.error .processingError, 1)
    else
      let rest := pollLoopAux polls (attempt + 1) rem
      (rest.1, rest.2 + 1)

/-- `process_ocr` (src lines 44-86): a non-202 submit response raises
(line 56), a missing Operation-Location header raises (line 61),
otherwise the loop polls up to `max_poll_attempts = 10` times. -/
def process_ocr (submit : SubmitResponse) (polls : Nat → PollResponse) :
    Except PipeError OcrResult :=
  if submit.statusCode ≠ 202 then .error .submissionError
  else
    match submit.operationLocation with
    | none => .error .protocolError
    | some _ => (pollLoopAux polls 0 10).1

/-- The number of polls `process_ocr`'s loop performs. -/
def pollCount (polls : Nat → PollResponse) : Nat :=
  (pollLoopAux polls 0 10).2

/-- Python's `"\n".join(lines)` (src line 93). -/
def joinLines : List (List Char) → List Char
  | [] => []
  | [l] => l
  | l :: ls => l ++ '\n' :: joinLines ls

/-- `extract_text` (src lines 89-96): a missing `analyzeResult` key is
a `KeyError`, caught and re-raised as the extraction exception (line
96); indexing `readResults[0]` on an empty list is an `IndexError`,
which the `except KeyError` clause does not catch and which therefore
propagates as-is. -/
def extract_text (ocr_result : OcrResult) : Except PipeError (List Char) :=
  match ocr_result.analyzeResult with
  | none => .error .extractionKeyError
  | some rs =>
    match rs with
    | [] => .error .indexError
    | r0 :: _ => .ok (joinLines (r0.lines.map (fun l => l.text)))

/-- The error-log line of `save_to_db`'s handler (src line 197):
no blob name in the message. -/
def dbLog (d : List Char) : List Char :=
  "Error saving data to SQL Database: ".toList ++ d

/-- `save_to_db` (src lines 171-197).  The database call itself is an
external collaborator (modelled by its outcome `db`); the function
wraps it in `try/except Exception` and only logs on failure, so it
never raises.  The result is the error-log line it emitted, if any. -/
def save_to_db (blob_name extracted_text : List Char)
    (parsed_data : ExtractedFields) (db : Except (List Char) Unit) :
    Option (List Char) :=
  match db with
  | .ok _ => none
  | .error d => some (dbLog d)

/-- The persisted row (src lines 182-186). -/
structure AssetRecord where
  FileName : List Char
  ExtractedText : List Char
  fields : ExtractedFields
deriving DecidableEq

/-- The external collaborators of one ingestion: the submit response,
the poll responses, and the database outcome. -/
structure Env where
  submit : SubmitResponse
  polls : Nat → PollResponse
  dbResult : Except (List Char) Unit

/-- The body of `blob_trigger`'s `try` block (src lines 22-39):
recognize, extract text, parse text and filename, merge, persist.
Returns the record passed to persistence and `save_to_db`'s error-log
line (if any), or the first exception raised. -/
def runPipeline (blobName : List Char) (env : Env) :
    Except PipeError (AssetRecord × Option (List Char)) := do
  let ocr ← process_ocr env.submit env.polls
  let extracted_text ← extract_text ocr
  let parsed_data_from_text := parse_extracted_text extracted_text
  let parsed_data_from_filename := extract_from_filename blobName
  let parsed_data := mergeFields parsed_data_from_text parsed_data_from_filename
  let saveLog := save_to_db blobName extracted_text parsed_data env.dbResult
  pure (⟨blobName, extracted_text, parsed_data⟩, saveLog)

/-- The error-log line of `blob_trigger`'s handler (src line 41):
`f"Failed to process blob {myblob.name}: {str(e)}"`. -/
def failLog (name : List Char) (e : PipeError) : List Char :=
  "Failed to process blob ".toList ++ name ++ ": ".toList ++ errMsg e

/-- What one invocation of the entry point did: either it ran to the
end (carrying the persisted record and any log line `save_to_db`
emitted), or its `except` clause caught an exception and logged it.
There is no constructor for a propagated exception: the handler at
src lines 40-41 catches every `Exception`. -/
inductive IngestOutcome where
  | completed (record : AssetRecord) (saveLog : Option (List Char))
  | caught (logMsg : List Char)
deriving DecidableEq

/-- `blob_trigger` (src lines 18-41): run the pipeline, catch any
exception and log it with the blob name. -/
def blob_trigger (blobName : List Char) (env : Env) : IngestOutcome :=
  match runPipeline blobName env with
  | .ok (record, saveLog) => .completed record saveLog
  | .error e => .caught (failLog blobName e)

/-! ## Position predicates for the filename patterns -/

/-- Position `i` of the text carries a match of `CP-F-\w+`: the
literal `CP-F-` followed by at least one word character. -/
def cpfAtB (text : List Char) (i : Nat) : Bool :=
  "CP-F-".toList.isPrefixOf (text.drop i) && headWord (text.drop (i + 5))

/-- Position `i` of the text carries a case-insensitive match of one
of the filename document-type alternatives. -/
def docAtB (text : List Char) (i : Nat) : Bool :=
  filename_document_patterns.any (fun p => isPrefixCI p (text.drop i))

/-! ## Helper lemmas -/

theorem drop_shift (c : Char) (rest : List Char) (i k : Nat) :
    (c :: rest).drop (i + 1 + k) = rest.drop (i + k) := by
  have h : i + 1 + k = (i + k) + 1 := by omega
  rw [h]
  rfl

theorem cpfAtB_shift (c : Char) (rest : List Char) (i : Nat) :
    cpfAtB (c :: rest) (i + 1) = cpfAtB rest i := by
  unfold cpfAtB
  rw [drop_shift c rest i 5]
  rfl

theorem findCPFNoBoundary_eq_none (text : List Char)
    (h : ∀ i, i ≤ text.length → cpfAtB text i = false) :
    findCPFNoBoundary text = none := by
  induction text with
  | nil => rfl
  | cons c rest ih =>
    have h0 : cpfAtB (c :: rest) 0 = false := h 0 (Nat.zero_le _)
    unfold findCPFNoBoundary
    rw [if_neg]
    · exact ih (fun i hi => by
        rw [← cpfAtB_shift c rest i]
        exact h (i + 1) (by simpa using Nat.succ_le_succ hi))
    · intro hc
      rw [show cpfAtB (c :: rest) 0
            = ("CP-F-".toList.isPrefixOf (c :: rest)
                && headWord ((c :: rest).drop 5)) from rfl] at h0
      rw [hc] at h0
      simp at h0

theorem docAtB_shift (c : Char) (rest : List Char) (i : Nat) :
    docAtB (c :: rest) (i + 1) = docAtB rest i := rfl

theorem findAltCI_eq_none (pats : List (List Char)) (text : List Char)
    (h : ∀ i, i ≤ text.length →
      pats.any (fun p => isPrefixCI p (text.drop i)) = false) :
    findAltCI pats text = none := by
  induction text with
  | nil =>
    have h0 : (pats.any fun p => isPrefixCI p ([] : List Char)) = false := by
      simpa using h 0 (Nat.zero_le _)
    have hall : ∀ p ∈ pats, ¬ (isPrefixCI p ([] : List Char) = true) := by
      simp only [List.any_eq_false] at h0
      exact h0
    have hf : pats.find? (fun p => isPrefixCI p ([] : List Char)) = none :=
      List.find?_eq_none.mpr hall
    unfold findAltCI
    rw [hf]
  | cons c rest ih =>
    have h0 : (pats.any fun p => isPrefixCI p (c :: rest)) = false := by
      simpa using h 0 (Nat.zero_le _)
    have hall : ∀ p ∈ pats, ¬ (isPrefixCI p (c :: rest) = true) := by
      simp only [List.any_eq_false] at h0
      exact h0
    have hf : pats.find? (fun p => isPrefixCI p (c :: rest)) = none :=
      List.find?_eq_none.mpr hall
    unfold findAltCI
    rw [hf]
    exact ih (fun i hi => h (i + 1) (by simpa using Nat.succ_le_succ hi))

/-! ## Claims C1, C2, C3, C8 -/

/-- C1 counterexample: with text `"Robot"` and filename
`"CP-F-X9.pdf"`, both parsers produce a value for `AssetType`, yet the
merged result carries the filename value, not the text value — the
claim's text-precedence fails on the code's `{**text, **filename}`
merge order. -/
theorem claim_C1_counterexample :
    (parse_extracted_text "Robot".toList).AssetType = some "Robot".toList ∧
    (extract_from_filename "CP-F-X9.pdf".toList).AssetType
      = some "CP-F-X9".toList ∧
    (mergeFields (parse_extracted_text "Robot".toList)
        (extract_from_filename "CP-F-X9.pdf".toList)).AssetType
      = some "CP-F-X9".toList ∧
    (mergeFields (parse_extracted_text "Robot".toList)
        (extract_from_filename "CP-F-X9.pdf".toList)).AssetType
      ≠ (parse_extracted_text "Robot".toList).AssetType := by
  decide

/-- C1 (amended): in the Orchestrator's merge, on key collision the
FILENAME-parse value takes precedence (the filename dict is spread
last); the keys only the text parser emits (Manufacturer, ModelNumber,
SerialNumber) are taken from the text parse. -/
theorem claim_C1 (text fname : List Char) :
    ((parse_extracted_text text).AssetType ≠ none →
      (extract_from_filename fname).AssetType ≠ none →
      (mergeFields (parse_extracted_text text)
          (extract_from_filename fname)).AssetType
        = (extract_from_filename fname).AssetType) ∧
    ((parse_extracted_text text).DocumentType ≠ none →
      (extract_from_filename fname).DocumentType ≠ none →
      (mergeFields (parse_extracted_text text)
          (extract_from_filename fname)).DocumentType
        = (extract_from_filename fname).DocumentType) ∧
    (mergeFields (parse_extracted_text text)
        (extract_from_filename fname)).Manufacturer
      = (parse_extracted_text text).Manufacturer ∧
    (mergeFields (parse_extracted_text text)
        (extract_from_filename fname)).ModelNumber
      = (parse_extracted_text text).ModelNumber ∧
    (mergeFields (parse_extracted_text text)
        (extract_from_filename fname)).SerialNumber
      = (parse_extracted_text text).SerialNumber :=
  ⟨fun _ _ => rfl, fun _ _ => rfl, rfl, rfl, rfl⟩

/-- C1 witness: the collision case of the amended claim at the
counterexample's input. -/
theorem claim_C1_witness :
    (mergeFields (parse_extracted_text "Robot".toList)
        (extract_from_filename "CP-F-X9.pdf".toList)).AssetType
      = (extract_from_filename "CP-F-X9.pdf".toList).AssetType :=
  (claim_C1 "Robot".toList "CP-F-X9.pdf".toList).1 (by decide) (by decide)

/-- C2 counterexample: text `"Use CP-F-X9 now"` with filename
`"CP-F-X9.pdf"` — after the merge, ModelNumber equals the non-unset
AssetType: the nulling guard runs inside `parse_extracted_text`, i.e.
before the merge, and nothing re-checks the invariant afterwards. -/
theorem claim_C2_counterexample :
    (mergeFields (parse_extracted_text "Use CP-F-X9 now".toList)
        (extract_from_filename "CP-F-X9.pdf".toList)).ModelNumber
      = (mergeFields (parse_extracted_text "Use CP-F-X9 now".toList)
          (extract_from_filename "CP-F-X9.pdf".toList)).AssetType ∧
    (mergeFields (parse_extracted_text "Use CP-F-X9 now".toList)
        (extract_from_filename "CP-F-X9.pdf".toList)).AssetType
      = some "CP-F-X9".toList := by
  decide

/-- C2 (amended): the ModelNumber/AssetType nulling holds of the
TEXT-PARSE result, before the merge: whenever `parse_extracted_text`
would return ModelNumber equal to AssetType, ModelNumber is unset.
(After the merge with the filename fields the equality can reoccur, as
the counterexample shows.) -/
theorem claim_C2 (text : List Char)
    (h : (parse_extracted_text text).ModelNumber
      = (parse_extracted_text text).AssetType) :
    (parse_extracted_text text).ModelNumber = none := by
  by_cases hc : findCPF text
      = asset_type_patterns.find? (fun a => searchWW a text)
  · show (if findCPF text
        = asset_type_patterns.find? (fun a => searchWW a text)
      then none else findCPF text) = none
    rw [if_pos hc]
  · exact absurd h (by
      show ¬ ((if findCPF text
          = asset_type_patterns.find? (fun a => searchWW a text)
        then none else findCPF text)
          = asset_type_patterns.find? (fun a => searchWW a text))
      rw [if_neg hc]
      exact hc)

/-- C2 witness: on a text with no model number and no asset type the
guard's hypothesis holds and ModelNumber is unset. -/
theorem claim_C2_witness :
    (parse_extracted_text "hello".toList).ModelNumber = none :=
  claim_C2 "hello".toList (by decide)

/-- C3 counterexample: the `\w+` of `CP-F-\w+` stops at the hyphen, so
the example filename yields AssetType `"CP-F-RASS"`, not the claimed
`"CP-F-RASS-C11R14"`. -/
theorem claim_C3_counterexample :
    (extract_from_filename "CP-F-RASS-C11R14_Manual.pdf".toList).AssetType
      ≠ some "CP-F-RASS-C11R14".toList ∧
    (extract_from_filename "CP-F-RASS-C11R14_Manual.pdf".toList).AssetType
      = some "CP-F-RASS".toList ∧
    (extract_from_filename "CP-F-RASS-C11R14_Manual.pdf".toList).DocumentType
      = some "Manual".toList := by
  decide

/-- C3 (amended): the example filename yields AssetType `"CP-F-RASS"`
(the `<word>` part of `CP-F-<word>` cannot cross a hyphen) and
DocumentType `"Manual"`; and any filename with no position matching
`CP-F-<word>` and no position matching one of Manual, Circuit
diagrams, Maintenance case-insensitively yields both fields unset
(and `extract_from_filename` is total, so no error is raised). -/
theorem claim_C3 :
    (extract_from_filename "CP-F-RASS-C11R14_Manual.pdf".toList
      = ⟨some "CP-F-RASS".toList, some "Manual".toList⟩) ∧
    ∀ fname : List Char,
      (∀ i, i ≤ fname.length → cpfAtB fname i = false) →
      (∀ i, i ≤ fname.length → docAtB fname i = false) →
      extract_from_filename fname = ⟨none, none⟩ := by
  constructor
  · decide
  · intro fname h1 h2
    unfold extract_from_filename
    rw [findCPFNoBoundary_eq_none fname h1,
        findAltCI_eq_none filename_document_patterns fname h2]

/-- C3 witness: a filename with no recognizable pattern yields both
fields unset. -/
theorem claim_C3_witness :
    extract_from_filename "notes.txt".toList = ⟨none, none⟩ :=
  claim_C3.2 "notes.txt".toList (by decide) (by decide)

/-- C8: the merged field set hands AssetType and DocumentType exactly
as produced by the filename parser (which always carries both keys,
possibly unset, and is spread last), and the remaining three keys
exactly as produced by the text parser. -/
theorem claim_C8 (text fname : List Char) :
    (mergeFields (parse_extracted_text text)
        (extract_from_filename fname)).AssetType
      = (extract_from_filename fname).AssetType ∧
    (mergeFields (parse_extracted_text text)
        (extract_from_filename fname)).DocumentType
      = (extract_from_filename fname).DocumentType ∧
    (mergeFields (parse_extracted_text text)
        (extract_from_filename fname)).Manufacturer
      = (parse_extracted_text text).Manufacturer ∧
    (mergeFields (parse_extracted_text text)
        (extract_from_filename fname)).ModelNumber
      = (parse_extracted_text text).ModelNumber ∧
    (mergeFields (parse_extracted_text text)
        (extract_from_filename fname)).SerialNumber
      = (parse_extracted_text text).SerialNumber :=
  ⟨rfl, rfl, rfl, rfl, rfl⟩

/-! ## Shape lemmas for the text parser -/

theorem findCPFAux_shape (text : List Char) :
    ∀ (b : Bool) (s : List Char), findCPFAux b text = some s →
      ∃ w, s = "CP-F-".toList ++ w := by
  induction text with
  | nil => intro b s h; cases h
  | cons c rest ih =>
    intro b s h
    unfold findCPFAux at h
    split at h
    · exact ⟨((c :: rest).drop 5).takeWhile wordChar, by
        injection h with h
        exact h.symm⟩
    · exact ih _ s h

theorem cpf_ne_asset (a : List Char) (ha : a ∈ asset_type_patterns)
    (w : List Char) : "CP-F-".toList ++ w ≠ a := by
  fin_cases ha <;> intro h <;> simp at h

/-- The projections of `parse_extracted_text`, written out once. -/
theorem parse_ModelNumber_eq (text : List Char) :
    (parse_extracted_text text).ModelNumber
      = (if findCPF text
            = asset_type_patterns.find? (fun a => searchWW a text)
          then none else findCPF text) := rfl

theorem parse_AssetType_eq (text : List Char) :
    (parse_extracted_text text).AssetType
      = asset_type_patterns.find? (fun a => searchWW a text) := rfl

theorem parse_Manufacturer_eq (text : List Char) :
    (parse_extracted_text text).Manufacturer
      = manufacturer_patterns.find? (fun m => containsSub m text) := rfl

theorem parse_DocumentType_eq (text : List Char) :
    (parse_extracted_text text).DocumentType
      = document_type_patterns.find? (fun d => searchWW d text) := rfl

/-- C9: a non-unset ModelNumber from the text parser always starts
with `CP-F-`; a non-unset AssetType is always one of the six fixed
vocabulary entries; hence the two non-unset values are never equal;
and the nulling guard never discards a model number the regex actually
found. -/
theorem claim_C9 (text : List Char) :
    (∀ s, (parse_extracted_text text).ModelNumber = some s →
      ∃ w, s = "CP-F-".toList ++ w) ∧
    (∀ a, (parse_extracted_text text).AssetType = some a →
      a ∈ asset_type_patterns) ∧
    ((parse_extracted_text text).ModelNumber ≠ none →
      (parse_extracted_text text).ModelNumber
        ≠ (parse_extracted_text text).AssetType) ∧
    (∀ s, findCPF text = some s →
      (parse_extracted_text text).ModelNumber = some s) := by
  refine ⟨?_, ?_, ?_, ?_⟩
  · intro s h
    rw [parse_ModelNumber_eq] at h
    split at h
    · cases h
    · exact findCPFAux_shape text true s h
  · intro a h
    rw [parse_AssetType_eq] at h
    exact List.mem_of_find?_eq_some h
  · intro hne heq
    rw [parse_ModelNumber_eq] at hne
    rw [parse_ModelNumber_eq, parse_AssetType_eq] at heq
    by_cases hc : findCPF text
        = asset_type_patterns.find? (fun a => searchWW a text)
    · rw [if_pos hc] at hne
      exact hne rfl
    · rw [if_neg hc] at heq
      exact hc heq
  · intro s h
    rw [parse_ModelNumber_eq, h]
    rw [if_neg]
    intro hc
    obtain ⟨w, hw⟩ := findCPFAux_shape text true s h
    exact cpf_ne_asset s (List.mem_of_find?_eq_some hc.symm) w hw.symm

/-- C9 witness: on a text carrying both a model number and a
vocabulary asset type, the two extracted values differ. -/
theorem claim_C9_witness :
    (parse_extracted_text "CP-F-X9 Robot".toList).ModelNumber
      ≠ (parse_extracted_text "CP-F-X9 Robot".toList).AssetType :=
  (claim_C9 "CP-F-X9 Robot".toList).2.2.1 (by decide)

/-! ## Whole-word search lemmas (for C10) -/

theorem isPrefixCI_append (p : List Char) :
    ∀ (q t : List Char), isPrefixCI (p ++ q) t = true →
      isPrefixCI q (t.drop p.length) = true := by
  induction p with
  | nil => intro q t h; simpa using h
  | cons a ps ih =>
    intro q t h
    cases t with
    | nil => cases h
    | cons b ts =>
      rw [show isPrefixCI ((a :: ps) ++ q) (b :: ts)
            = (charEqCI b a && isPrefixCI (ps ++ q) ts) from rfl] at h
      rw [Bool.and_eq_true] at h
      exact ih q ts h.2

theorem charEqCI_space (c : Char) (h : charEqCI c ' ' = true) :
    wordChar c = false := by
  have h32 : (' ' : Char).toNat = 32 := rfl
  simp only [charEqCI, lowerN, h32, beq_iff_eq] at h
  by_cases hb : (65 ≤ c.toNat && c.toNat ≤ 90) = true
  · rw [if_pos hb, if_neg (by decide)] at h
    simp only [Bool.and_eq_true, decide_eq_true_eq] at hb
    exact absurd h (by omega)
  · rw [if_neg hb, if_neg (by decide)] at h
    simp [wordChar, h]

theorem nonWordAt_drop (t : List Char) (m n : Nat) :
    nonWordAt (t.drop m) n = nonWordAt t (m + n) := by
  unfold nonWordAt
  rw [List.drop_drop]

theorem drop_succ_of_drop_cons (t : List Char) (j : Nat) (c : Char)
    (ts : List Char) (h : t.drop j = c :: ts) : t.drop (j + 1) = ts := by
  rw [← List.drop_drop 1 j t, h]
  rfl

/-- If the text carries a whole-word case-insensitive match of `pat`
at offset `i` — with the character before offset `i` absent or
non-word — then the scanner finds a match. -/
theorem searchWWAux_at (pat : List Char) :
    ∀ (i : Nat) (text : List Char) (b : Bool),
      ((i = 0 ∧ b = true) ∨
        (∃ j c ts, i = j + 1 ∧ text.drop j = c :: ts ∧ wordChar c = false)) →
      isPrefixCI pat (text.drop i) = true →
      nonWordAt (text.drop i) pat.length = true →
      searchWWAux pat b text = true := by
  intro i
  induction i with
  | zero =>
    intro text b hprev hpre hnw
    rcases hprev with ⟨_, hb⟩ | ⟨j, c, ts, hj, _, _⟩
    · cases text with
      | nil =>
        rw [show searchWWAux pat b []
              = (b && isPrefixCI pat [] && nonWordAt ([] : List Char) pat.length)
            from rfl]
        rw [hb]
        simpa using And.intro hpre hnw
      | cons c rest =>
        rw [show searchWWAux pat b (c :: rest)
              = ((b && isPrefixCI pat (c :: rest)
                  && nonWordAt (c :: rest) pat.length)
                || searchWWAux pat (!wordChar c) rest) from rfl]
        rw [hb]
        simp only [Bool.true_and, Bool.or_eq_true]
        exact Or.inl (by simpa using And.intro hpre hnw)
    · cases hj
  | succ j0 ih =>
    intro text b hprev hpre hnw
    rcases hprev with ⟨hi, _⟩ | ⟨j, c, ts, hj, hdrop, hw⟩
    · cases hi
    · have hj' : j0 = j := by omega
      subst hj'
      cases text with
      | nil => rw [List.drop_nil] at hdrop; cases hdrop
      | cons hd rest =>
        rw [show searchWWAux pat b (hd :: rest)
              = ((b && isPrefixCI pat (hd :: rest)
                  && nonWordAt (hd :: rest) pat.length)
                || searchWWAux pat (!wordChar hd) rest) from rfl]
        rw [Bool.or_eq_true]
        refine Or.inr (ih rest (!wordChar hd) ?_ ?_ ?_)
        · cases j0 with
          | zero =>
            refine Or.inl ⟨rfl, ?_⟩
            have : hd = c := by
              have := hdrop
              rw [List.drop_zero] at this
              injection this with h1 _
            rw [this, hw]
            rfl
          | succ j1 =>
            refine Or.inr ⟨j1, c, ts, rfl, ?_, hw⟩
            rw [show (hd :: rest).drop (j1 + 1) = rest.drop j1 from rfl] at hdrop
            exact hdrop
        · rw [show (hd :: rest).drop (j0 + 1) = rest.drop j0 from rfl] at hpre
          exact hpre
        · rw [show (hd :: rest).drop (j0 + 1) = rest.drop j0 from rfl] at hnw
          exact hnw

/-- Any text with a whole-word case-insensitive occurrence of
`Maintenance Manual` also has one of `Manual` (starting 12 characters
later, preceded by the space), so the `Manual` search succeeds
whenever the `Maintenance Manual` search does. -/
theorem searchWW_manual_of_mm :
    ∀ (text : List Char) (b : Bool),
      searchWWAux "Maintenance Manual".toList b text = true →
      searchWWAux "Manual".toList b text = true := by
  have hsplit : "Maintenance Manual".toList
      = "Maintenance".toList ++ (' ' :: "Manual".toList) := by decide
  intro text
  induction text with
  | nil =>
    intro b h
    cases b
    · exact absurd h (by decide)
    · exact absurd h (by decide)
  | cons c rest ih =>
    intro b h
    rw [show searchWWAux "Maintenance Manual".toList b (c :: rest)
          = ((b && isPrefixCI "Maintenance Manual".toList (c :: rest)
              && nonWordAt (c :: rest) "Maintenance Manual".toList.length)
            || searchWWAux "Maintenance Manual".toList (!wordChar c) rest)
        from rfl, Bool.or_eq_true] at h
    rcases h with h | h
    · simp only [Bool.and_eq_true] at h
      obtain ⟨⟨hb, hpre⟩, hnw⟩ := h
      rw [hsplit] at hpre
      have hpost := isPrefixCI_append "Maintenance".toList
        (' ' :: "Manual".toList) (c :: rest) hpre
      rw [show ("Maintenance".toList).length = 11 from rfl] at hpost
      rcases hdrop : (c :: rest).drop 11 with _ | ⟨c2, ts⟩
      · rw [hdrop] at hpost; cases hpost
      · rw [hdrop] at hpost
        rw [show isPrefixCI (' ' :: "Manual".toList) (c2 :: ts)
              = (charEqCI c2 ' ' && isPrefixCI "Manual".toList ts)
            from rfl, Bool.and_eq_true] at hpost
        obtain ⟨hsp, hman⟩ := hpost
        have hts : (c :: rest).drop 12 = ts :=
          drop_succ_of_drop_cons (c :: rest) 11 c2 ts hdrop
        refine searchWWAux_at "Manual".toList 12 (c :: rest) b ?_ ?_ ?_
        · exact Or.inr ⟨11, c2, ts, rfl, hdrop, charEqCI_space c2 hsp⟩
        · rw [hts]; exact hman
        · rw [nonWordAt_drop, show (12 : Nat) + ("Manual".toList).length = 18
              from rfl]
          rw [show ("Maintenance Manual".toList).length = 18 from rfl] at hnw
          exact hnw
    · exact Or.inr (ih (!wordChar c) h) |>.elim
        (fun h => by
          rw [show searchWWAux "Manual".toList b (c :: rest)
                = ((b && isPrefixCI "Manual".toList (c :: rest)
                    && nonWordAt (c :: rest) "Manual".toList.length)
                  || searchWWAux "Manual".toList (!wordChar c) rest)
              from rfl, Bool.or_eq_true]
          exact Or.inr h)
        (fun h => by
          rw [show searchWWAux "Manual".toList b (c :: rest)
                = ((b && isPrefixCI "Manual".toList (c :: rest)
                    && nonWordAt (c :: rest) "Manual".toList.length)
                  || searchWWAux "Manual".toList (!wordChar c) rest)
              from rfl, Bool.or_eq_true]
          exact Or.inr h)

/-- `List.find?` on a cons cell whose head satisfies the predicate. -/
theorem find?_cons_pos (p : List Char → Bool) (a : List Char)
    (l : List (List Char)) (h : p a = true) :
    List.find? p (a :: l) = some a := by
  simp [List.find?, h]

/-- `List.find?` on a cons cell whose head fails the predicate. -/
theorem find?_cons_neg (p : List Char → Bool) (a : List Char)
    (l : List (List Char)) (h : p a = false) :
    List.find? p (a :: l) = List.find? p l := by
  simp [List.find?, h]

/-- C10: `parse_extracted_text` never returns DocumentType
`"Maintenance Manual"`: any whole-word occurrence of that phrase
contains a whole-word occurrence of `"Manual"`, which comes first in
`document_type_patterns` and therefore always wins, so DocumentType is
always unset, `"Manual"`, or `"Circuit diagrams"`. -/
theorem claim_C10 (text : List Char) :
    (parse_extracted_text text).DocumentType = none ∨
    (parse_extracted_text text).DocumentType = some "Manual".toList ∨
    (parse_extracted_text text).DocumentType
      = some "Circuit diagrams".toList := by
  rw [parse_DocumentType_eq]
  rw [show document_type_patterns
        = ["Manual".toList, "Circuit diagrams".toList,
           "Maintenance Manual".toList] from rfl]
  cases h1 : searchWW "Manual".toList text with
  | true =>
    rw [find?_cons_pos (fun d => searchWW d text) "Manual".toList
      ["Circuit diagrams".toList, "Maintenance Manual".toList] h1]
    exact Or.inr (Or.inl rfl)
  | false =>
    rw [find?_cons_neg (fun d => searchWW d text) "Manual".toList
      ["Circuit diagrams".toList, "Maintenance Manual".toList] h1]
    cases h2 : searchWW "Circuit diagrams".toList text with
    | true =>
      rw [find?_cons_pos (fun d => searchWW d text) "Circuit diagrams".toList
        ["Maintenance Manual".toList] h2]
      exact Or.inr (Or.inr rfl)
    | false =>
      rw [find?_cons_neg (fun d => searchWW d text) "Circuit diagrams".toList
        ["Maintenance Manual".toList] h2]
      cases h3 : searchWW "Maintenance Manual".toList text with
      | true =>
        exfalso
        have hm : searchWW "Manual".toList text = true :=
          searchWW_manual_of_mm text true h3
        rw [h1] at hm
        exact Bool.noConfusion hm
      | false =>
        rw [find?_cons_neg (fun d => searchWW d text)
          "Maintenance Manual".toList [] h3]
        exact Or.inl rfl

/-- C4 counterexample: the manufacturer vocabulary test is Python's
case-sensitive substring operator `in`, not a case-insensitive
whole-word match: lower-case `"festo"` is not detected, while the
non-whole-word occurrence inside `"FESTOX"` is. -/
theorem claim_C4_counterexample :
    (parse_extracted_text "festo".toList).Manufacturer = none ∧
    (parse_extracted_text "FESTOX".toList).Manufacturer
      = some "FESTO".toList := by
  decide

/-- C4 (amended): document-type and asset-type vocabulary matches are
case-insensitive and whole-word, with the first entry in the fixed
list order winning; the MANUFACTURER match, however, is a
case-sensitive substring test (also first-in-list-order).  In
particular Manufacturer is `FESTO` exactly when the text contains the
exact substring `"FESTO"`. -/
theorem claim_C4 (text : List Char) :
    ((parse_extracted_text text).Manufacturer = some "FESTO".toList ↔
      containsSub "FESTO".toList text = true) ∧
    ((parse_extracted_text text).DocumentType = some "Manual".toList ↔
      searchWW "Manual".toList text = true) ∧
    (searchWW "Robot".toList text = true →
      (parse_extracted_text text).AssetType = some "Robot".toList) := by
  refine ⟨⟨?_, ?_⟩, ⟨?_, ?_⟩, ?_⟩
  · intro h
    rw [parse_Manufacturer_eq] at h
    have hp := List.find?_some h
    exact hp
  · intro h
    rw [parse_Manufacturer_eq,
        show manufacturer_patterns
          = ["FESTO".toList, "Mitsubishi".toList, "Siemens".toList,
             "ABB".toList] from rfl,
        find?_cons_pos (fun m => containsSub m text) "FESTO".toList
          ["Mitsubishi".toList, "Siemens".toList, "ABB".toList] h]
  · intro h
    rw [parse_DocumentType_eq] at h
    have hp := List.find?_some h
    exact hp
  · intro h
    rw [parse_DocumentType_eq,
        show document_type_patterns
          = ["Manual".toList, "Circuit diagrams".toList,
             "Maintenance Manual".toList] from rfl,
        find?_cons_pos (fun d => searchWW d text) "Manual".toList
          ["Circuit diagrams".toList, "Maintenance Manual".toList] h]
  · intro h
    rw [parse_AssetType_eq,
        show asset_type_patterns
          = ["Robot".toList, "Conveyor".toList, "Assembly Cell".toList,
             "Motor".toList, "Switch".toList, "Grundmodul".toList] from rfl,
        find?_cons_pos (fun a => searchWW a text) "Robot".toList
          ["Conveyor".toList, "Assembly Cell".toList, "Motor".toList,
           "Switch".toList, "Grundmodul".toList] h]

/-- C4 witness: the amended claim instantiated on a text carrying the
exact substring `FESTO` and whole-word `Robot`. -/
theorem claim_C4_witness :
    (parse_extracted_text "FESTO builds a Robot".toList).Manufacturer
      = some "FESTO".toList ∧
    (parse_extracted_text "FESTO builds a Robot".toList).AssetType
      = some "Robot".toList :=
  ⟨(claim_C4 "FESTO builds a Robot".toList).1.mpr (by decide),
   (claim_C4 "FESTO builds a Robot".toList).2.2 (by decide)⟩

/-! ## Poll-loop lemmas (for C5, C6) -/

theorem nonTerminal_not_terminal (r : PollResponse)
    (h : nonTerminalPoll r = true) :
    isSucceededPoll r = false ∧ isFailedPoll r = false := by
  simp only [nonTerminalPoll, Bool.and_eq_true, Bool.not_eq_true'] at h
  exact h

theorem pollLoopAux_unfold (polls : Nat → PollResponse) (start r : Nat) :
    pollLoopAux polls start (r + 1)
      = (if isSucceededPoll (polls start)
          then ((.ok (polls start).body, 1) : Except PipeError OcrResult × Nat)
          else if isFailedPoll (polls start)
            then (.error .processingError, 1)
            else ((pollLoopAux polls (start + 1) r).1,
                  (pollLoopAux polls (start + 1) r).2 + 1)) := rfl

theorem pollLoopAux_succeed (polls : Nat → PollResponse) :
    ∀ (k rem start : Nat), k < rem →
      (∀ i, i < k → nonTerminalPoll (polls (start + i)) = true) →
      isSucceededPoll (polls (start + k)) = true →
      pollLoopAux polls start rem = (.ok (polls (start + k)).body, k + 1) := by
  intro k
  induction k with
  | zero =>
    intro rem start hk hpre hs
    cases rem with
    | zero => omega
    | succ r =>
      rw [pollLoopAux_unfold polls start r,
          if_pos (by simpa using hs)]
      rfl
  | succ k ih =>
    intro rem start hk hpre hs
    cases rem with
    | zero => omega
    | succ r =>
      obtain ⟨hs0, hf0⟩ := nonTerminal_not_terminal _
        (by simpa using hpre 0 (Nat.succ_pos k))
      rw [pollLoopAux_unfold polls start r,
          if_neg (by simp [hs0]), if_neg (by simp [hf0])]
      have ihr := ih r (start + 1) (by omega)
        (fun i hi => by
          have h1 := hpre (i + 1) (by omega)
          rw [show start + (i + 1) = start + 1 + i from by omega] at h1
          exact h1)
        (by
          rw [show start + 1 + k = start + (k + 1) from by omega]
          exact hs)
      rw [ihr, show start + 1 + k = start + (k + 1) from by omega]

theorem pollLoopAux_failed (polls : Nat → PollResponse) :
    ∀ (k rem start : Nat), k < rem →
      (∀ i, i < k → nonTerminalPoll (polls (start + i)) = true) →
      isFailedPoll (polls (start + k)) = true →
      pollLoopAux polls start rem = (.error .processingError, k + 1) := by
  intro k
  induction k with
  | zero =>
    intro rem start hk hpre hf
    cases rem with
    | zero => omega
    | succ r =>
      have hs0 : isSucceededPoll (polls start) = false := by
        have hf' : isFailedPoll (polls start) = true := by simpa using hf
        simp only [isFailedPoll, Bool.and_eq_true, beq_iff_eq] at hf'
        simp only [isSucceededPoll, Bool.and_eq_false_iff]
        right
        rw [hf'.2]
        decide
      rw [pollLoopAux_unfold polls start r, if_neg (by simp [hs0]),
          if_pos (by simpa using hf)]
  | succ k ih =>
    intro rem start hk hpre hf
    cases rem with
    | zero => omega
    | succ r =>
      obtain ⟨hs0, hf0⟩ := nonTerminal_not_terminal _
        (by simpa using hpre 0 (Nat.succ_pos k))
      rw [pollLoopAux_unfold polls start r,
          if_neg (by simp [hs0]), if_neg (by simp [hf0])]
      have ihr := ih r (start + 1) (by omega)
        (fun i hi => by
          have h1 := hpre (i + 1) (by omega)
          rw [show start + (i + 1) = start + 1 + i from by omega] at h1
          exact h1)
        (by
          rw [show start + 1 + k = start + (k + 1) from by omega]
          exact hf)
      rw [ihr]

theorem pollLoopAux_timeout (polls : Nat → PollResponse) :
    ∀ (rem start : Nat),
      (∀ i, i < rem → nonTerminalPoll (polls (start + i)) = true) →
      pollLoopAux polls start rem = (.error .timeoutError, rem) := by
  intro rem
  induction rem with
  | zero => intro start _; rfl
  | succ r ih =>
    intro start h
    obtain ⟨hs0, hf0⟩ := nonTerminal_not_terminal _
      (by simpa using h 0 (Nat.succ_pos r))
    rw [pollLoopAux_unfold polls start r,
        if_neg (by simp [hs0]), if_neg (by simp [hf0])]
    have ihr := ih (start + 1) (fun i hi => by
      have h1 := h (i + 1) (by omega)
      rw [show start + (i + 1) = start + 1 + i from by omega] at h1
      exact h1)
    rw [ihr]

theorem pollLoopAux_count_le (polls : Nat → PollResponse) :
    ∀ (rem start : Nat), (pollLoopAux polls start rem).2 ≤ rem := by
  intro rem
  induction rem with
  | zero => intro start; exact Nat.le_refl 0
  | succ r ih =>
    intro start
    rw [pollLoopAux_unfold polls start r]
    by_cases h1 : isSucceededPoll (polls start) = true
    · rw [if_pos h1]; omega
    · rw [if_neg h1]
      by_cases h2 : isFailedPoll (polls start) = true
      · rw [if_pos h2]; omega
      · rw [if_neg h2]
        have := ih (start + 1)
        simpa using Nat.succ_le_succ this

theorem process_ocr_accepted (submit : SubmitResponse)
    (polls : Nat → PollResponse) (hs : submit.statusCode = 202)
    (hl : submit.operationLocation.isSome = true) :
    process_ocr submit polls = (pollLoopAux polls 0 10).1 := by
  unfold process_ocr
  rw [hs, if_neg (by simp)]
  obtain ⟨loc, hloc⟩ := Option.isSome_iff_exists.mp hl
  rw [hloc]

/-- C5: with an accepted submission, the Recognition Client performs
at most 10 polls; if the first terminal report is `succeeded` on the
(k+1)-st poll (0-based index k), it returns that poll's payload after
exactly k+1 polls; and if all 10 polls are non-terminal it raises the
timeout exception. -/
theorem claim_C5 (submit : SubmitResponse) (polls : Nat → PollResponse)
    (hs : submit.statusCode = 202)
    (hl : submit.operationLocation.isSome = true) :
    (∀ k, k < 10 →
      (∀ i, i < k → nonTerminalPoll (polls i) = true) →
      isSucceededPoll (polls k) = true →
      process_ocr submit polls = .ok (polls k).body ∧
        pollCount polls = k + 1) ∧
    ((∀ i, i < 10 → nonTerminalPoll (polls i) = true) →
      process_ocr submit polls = .error .timeoutError ∧
        pollCount polls = 10) ∧
    pollCount polls ≤ 10 := by
  refine ⟨?_, ?_, pollLoopAux_count_le polls 10 0⟩
  · intro k hk hpre hsucc
    have hloop := pollLoopAux_succeed polls k 10 0 hk
      (fun i hi => by simpa using hpre i hi) (by simpa using hsucc)
    refine ⟨?_, ?_⟩
    · rw [process_ocr_accepted submit polls hs hl, hloop]
      simp
    · show (pollLoopAux polls 0 10).2 = k + 1
      rw [hloop]
  · intro hall
    have hloop := pollLoopAux_timeout polls 10 0
      (fun i hi => by simpa using hall i hi)
    refine ⟨?_, ?_⟩
    · rw [process_ocr_accepted submit polls hs hl, hloop]
    · show (pollLoopAux polls 0 10).2 = 10
      rw [hloop]

/-- C5 witness: two not-ready polls then `succeeded` on the third:
the client returns that payload after exactly 3 polls. -/
theorem claim_C5_witness :
    process_ocr ⟨202, some "op".toList⟩
        (fun i => if i < 2 then ⟨404, ⟨"running".toList, none⟩⟩
                  else ⟨200, ⟨"succeeded".toList, none⟩⟩)
      = .ok ⟨"succeeded".toList, none⟩ ∧
    pollCount (fun i => if i < 2 then ⟨404, ⟨"running".toList, none⟩⟩
                  else ⟨200, ⟨"succeeded".toList, none⟩⟩) = 3 :=
  (claim_C5 ⟨202, some "op".toList⟩
      (fun i => if i < 2 then ⟨404, ⟨"running".toList, none⟩⟩
                else ⟨200, ⟨"succeeded".toList, none⟩⟩)
      (by decide) (by decide)).1 2 (by decide) (by decide) (by decide)

/-- C6: if some poll reports `failed` first (0-based index k, within
the budget), the client raises the processing failure immediately,
after exactly k+1 polls, regardless of the remaining budget. -/
theorem claim_C6 (submit : SubmitResponse) (polls : Nat → PollResponse)
    (k : Nat) (hs : submit.statusCode = 202)
    (hl : submit.operationLocation.isSome = true) (hk : k < 10)
    (hpre : ∀ i, i < k → nonTerminalPoll (polls i) = true)
    (hfail : isFailedPoll (polls k) = true) :
    process_ocr submit polls = .error .processingError ∧
      pollCount polls = k + 1 := by
  have hloop := pollLoopAux_failed polls k 10 0 hk
    (fun i hi => by simpa using hpre i hi) (by simpa using hfail)
  refine ⟨?_, ?_⟩
  · rw [process_ocr_accepted submit polls hs hl, hloop]
  · show (pollLoopAux polls 0 10).2 = k + 1
    rw [hloop]

/-- C6 witness: one not-ready poll, then `failed` on the second: the
client raises after exactly 2 polls, with 8 attempts still unused. -/
theorem claim_C6_witness :
    process_ocr ⟨202, some "op".toList⟩
        (fun i => if i < 1 then ⟨200, ⟨"running".toList, none⟩⟩
                  else ⟨200, ⟨"failed".toList, none⟩⟩)
      = .error .processingError ∧
    pollCount (fun i => if i < 1 then ⟨200, ⟨"running".toList, none⟩⟩
                  else ⟨200, ⟨"failed".toList, none⟩⟩) = 2 :=
  claim_C6 ⟨202, some "op".toList⟩
    (fun i => if i < 1 then ⟨200, ⟨"running".toList, none⟩⟩
              else ⟨200, ⟨"failed".toList, none⟩⟩)
    1 (by decide) (by decide) (by decide) (by decide) (by decide)

/-! ## Log-message lemmas (for C7) -/

theorem isPrefixOf_self_append (l t : List Char) :
    l.isPrefixOf (l ++ t) = true := by
  rw [List.isPrefixOf_iff_prefix]
  exact List.prefix_append l t

theorem containsSub_nil_pat (t : List Char) : containsSub [] t = true := by
  cases t with
  | nil => rfl
  | cons c rest => rfl

theorem containsSub_self_append (s b : List Char) :
    containsSub s (s ++ b) = true := by
  cases s with
  | nil => exact containsSub_nil_pat b
  | cons c cs =>
    rw [show (c :: cs) ++ b = c :: (cs ++ b) from rfl]
    rw [show containsSub (c :: cs) (c :: (cs ++ b))
          = ((c :: cs).isPrefixOf (c :: (cs ++ b))
            || containsSub (c :: cs) (cs ++ b)) from rfl]
    rw [show c :: (cs ++ b) = (c :: cs) ++ b from rfl,
        isPrefixOf_self_append]
    rfl

theorem containsSub_append (s a b : List Char) :
    containsSub s (a ++ (s ++ b)) = true := by
  induction a with
  | nil => exact containsSub_self_append s b
  | cons c a0 ih =>
    rw [show (c :: a0) ++ (s ++ b) = c :: (a0 ++ (s ++ b)) from rfl]
    rw [show containsSub s (c :: (a0 ++ (s ++ b)))
          = (s.isPrefixOf (c :: (a0 ++ (s ++ b)))
            || containsSub s (a0 ++ (s ++ b))) from rfl]
    rw [ih]
    exact Bool.or_true _

/-- C7 counterexample: when only the database step fails, the failure
is caught INSIDE `save_to_db` (its own `try/except`), never reaches
the orchestrator's handler, and the only error log emitted does not
contain the file name — contradicting "caught at the Orchestrator
boundary, logged with the file name". -/
theorem claim_C7_counterexample :
    blob_trigger "file1.pdf".toList
        ⟨⟨202, some "op".toList⟩,
         fun _ => ⟨200, ⟨"succeeded".toList,
                          some [⟨[⟨"FESTO".toList⟩]⟩]⟩⟩,
         .error "boom".toList⟩
      = .completed
          ⟨"file1.pdf".toList, "FESTO".toList,
           ⟨none, some "FESTO".toList, none, none, none⟩⟩
          (some (dbLog "boom".toList)) ∧
    containsSub "file1.pdf".toList (dbLog "boom".toList) = false := by
  decide

/-- C7 (amended): failures raised by the recognition or
text-extraction steps are caught at the orchestrator boundary and
logged with the file name; a database failure is caught inside
`save_to_db` and logged without the file name; in every case the entry
point returns an outcome instead of propagating an exception. -/
theorem claim_C7 (name : List Char) (env : Env) :
    (∀ e, runPipeline name env = .error e →
      blob_trigger name env = .caught (failLog name e) ∧
      containsSub name (failLog name e) = true) ∧
    (∀ r s, runPipeline name env = .ok (r, s) →
      blob_trigger name env = .completed r s) ∧
    (∀ d r s, env.dbResult = .error d → runPipeline name env = .ok (r, s) →
      s = some (dbLog d)) := by
  refine ⟨?_, ?_, ?_⟩
  · intro e he
    refine ⟨?_, ?_⟩
    · unfold blob_trigger
      rw [he]
    · unfold failLog
      simp only [List.append_assoc]
      exact containsSub_append name "Failed to process blob ".toList
        (": ".toList ++ errMsg e)
  · intro r s h
    unfold blob_trigger
    rw [h]
  · intro d r s hd h
    unfold runPipeline at h
    cases hocr : process_ocr env.submit env.polls with
    | error e =>
      rw [hocr] at h
      simp only [bind, Except.bind] at h
      exact Except.noConfusion h
    | ok ocr =>
      rw [hocr] at h
      simp only [bind, Except.bind] at h
      cases hex : extract_text ocr with
      | error e =>
        rw [hex] at h
        simp only [Except.bind] at h
        exact Except.noConfusion h
      | ok extracted_text =>
        rw [hex] at h
        simp only [Except.bind, pure, Except.pure] at h
        injection h with h
        have hs : save_to_db name extracted_text
            (mergeFields (parse_extracted_text extracted_text)
              (extract_from_filename name)) env.dbResult = s :=
          congrArg Prod.snd h
        rw [hd] at hs
        rw [← hs]
        rfl

/-- C7 witness: a rejected submission is caught and its log line
contains the blob name. -/
theorem claim_C7_witness :
    blob_trigger "f.pdf".toList
        ⟨⟨400, none⟩, fun _ => ⟨200, ⟨"succeeded".toList, none⟩⟩, .ok ()⟩
      = .caught (failLog "f.pdf".toList .submissionError) ∧
    containsSub "f.pdf".toList
        (failLog "f.pdf".toList .submissionError) = true :=
  (claim_C7 "f.pdf".toList
      ⟨⟨400, none⟩, fun _ => ⟨200, ⟨"succeeded".toList, none⟩⟩, .ok ()⟩).1
    .submissionError (by rfl)
